import Mathlib

/-!
Verification of the upload-ingestion and stream-relay core of `src/htjdg.py`.

The development shallowly embeds the two components of the program:

* the FastAPI `upload` endpoint (filename sanitization via `os.path.basename`,
  collision probing with `name(counter)ext` candidates, the 4 MiB streaming
  write loop, and the error-cleanup path), and
* the Streamlit relay controls (the Start/Stop button handlers acting on
  `st.session_state.ffmpeg_proc`, and the ffmpeg command construction).

Machine strings are Lean `String`s (lists of characters), file bytes are
`Nat`s, and the storage directory is a flat association list of
filename/contents pairs, exactly mirroring the flat `./uploads` directory.
-/

namespace Htjdg

/-! ### Decimal digits of `Nat.repr`

The collision-probing loop of `upload` builds candidate filenames
`f"{base}({counter}){ext}"`.  To prove the loop total we need that distinct
counters yield distinct candidate strings, i.e. that `Nat.repr` is injective,
and that the rendered counter consists of digit characters only.  Core Lean
has no such lemmas, so we relate `Nat.toDigitsCore` to a clean recursive
digit function and prove a decode round-trip.
-/

/-- Reference decimal rendering: most significant digit first. -/
def natDigits (n : Nat) : List Char :=
  if n < 10 then [Nat.digitChar n]
  else natDigits (n / 10) ++ [Nat.digitChar (n % 10)]
termination_by n
decreasing_by
  exact Nat.div_lt_self (by omega) (by omega)

theorem digitChar_mem_digits :
    ∀ d, d < 10 → Nat.digitChar d ∈ (['0', '1', '2', '3', '4', '5', '6', '7', '8', '9'] : List Char) := by
  decide

theorem digitChar_decode : ∀ d, d < 10 → (Nat.digitChar d).toNat - 48 = d := by
  decide

theorem natDigits_subset (n : Nat) :
    ∀ c ∈ natDigits n, c ∈ (['0', '1', '2', '3', '4', '5', '6', '7', '8', '9'] : List Char) := by
  induction' n using Nat.strong_induction_on with n ih
  intro c hc
  rw [natDigits] at hc
  by_cases h : n < 10
  · rw [if_pos h] at hc
    rcases List.mem_singleton.mp hc with rfl
    exact digitChar_mem_digits n h
  · rw [if_neg h] at hc
    rcases List.mem_append.mp hc with hc | hc
    · exact ih (n / 10) (Nat.div_lt_self (by omega) (by omega)) c hc
    · rcases List.mem_singleton.mp hc with rfl
      exact digitChar_mem_digits (n % 10) (Nat.mod_lt n (by omega))

theorem natDigits_foldl (n : Nat) :
    ∀ a : Nat, (natDigits n).foldl (fun a c => a * 10 + (c.toNat - 48)) a
      = a * 10 ^ (natDigits n).length + n := by
  induction' n using Nat.strong_induction_on with n ih
  intro a
  rw [natDigits]
  by_cases h : n < 10
  · rw [if_pos h]
    simp [digitChar_decode n h]
  · rw [if_neg h]
    rw [List.foldl_append, ih (n / 10) (Nat.div_lt_self (by omega) (by omega)) a]
    simp only [List.foldl_cons, List.foldl_nil, List.length_append, List.length_cons,
      List.length_nil, Nat.zero_add]
    rw [digitChar_decode (n % 10) (Nat.mod_lt n (by omega))]
    rw [pow_succ]
    have hdm := Nat.div_add_mod n 10
    generalize (10 : Nat) ^ (natDigits (n / 10)).length = X
    ring_nf
    omega

theorem natDigits_injective : Function.Injective natDigits := by
  intro m n h
  have hm := natDigits_foldl m 0
  have hn := natDigits_foldl n 0
  rw [h] at hm
  omega

theorem toDigitsCore_eq_natDigits (fuel : Nat) :
    ∀ (n : Nat) (acc : List Char), n < fuel →
      Nat.toDigitsCore 10 fuel n acc = natDigits n ++ acc := by
  induction fuel with
  | zero => omega
  | succ fuel ih =>
    intro n acc h
    show (if n / 10 = 0 then Nat.digitChar (n % 10) :: acc
          else Nat.toDigitsCore 10 fuel (n / 10) (Nat.digitChar (n % 10) :: acc)) = _
    by_cases h0 : n / 10 = 0
    · have hn : n < 10 := by omega
      rw [if_pos h0, natDigits, if_pos hn, Nat.mod_eq_of_lt hn]
      simp
    · have hge : ¬ n < 10 := by omega
      have hlt : n / 10 < fuel :=
        Nat.lt_of_lt_of_le (Nat.div_lt_self (by omega) (by omega)) (by omega)
      rw [if_neg h0, ih (n / 10) _ hlt]
      conv_rhs => rw [natDigits]
      rw [if_neg hge]
      simp

theorem repr_data (n : Nat) : (Nat.repr n).data = natDigits n := by
  show (Nat.toDigits 10 n).asString.data = natDigits n
  rw [Nat.toDigits, toDigitsCore_eq_natDigits (n + 1) n [] (by omega)]
  simp [List.asString]

theorem repr_injective : Function.Injective Nat.repr := by
  intro m n h
  apply natDigits_injective
  rw [← repr_data, ← repr_data, h]

theorem rparen_not_mem_repr (n : Nat) : (')') ∉ (Nat.repr n).data := by
  intro h
  rw [repr_data] at h
  exact absurd (natDigits_subset n _ h) (by decide)

theorem slash_not_mem_repr (n : Nat) : ('/') ∉ (Nat.repr n).data := by
  intro h
  rw [repr_data] at h
  exact absurd (natDigits_subset n _ h) (by decide)

/-! ### `os.path.basename` and `os.path.splitext`

`upload` sanitizes the client-supplied filename with
`filename = os.path.basename(file.filename)` (POSIX: everything after the
last `'/'`) and, when probing, splits it with
`base, ext = os.path.splitext(filename)` (split at the last `'.'`, unless
every character before that dot is itself a dot, as in `".bashrc"`).
-/

/-- Accumulator pass of POSIX `basename`: keep the characters seen since the
last `'/'`. -/
def basenameAux : List Char → List Char → List Char
  | acc, [] => acc
  | acc, c :: rest => if c = '/' then basenameAux [] rest else basenameAux (acc ++ [c]) rest

/-- `os.path.basename`: the suffix of the path after its last `'/'`. -/
def basename (s : String) : String := ⟨basenameAux [] s.data⟩

theorem basenameAux_no_slash (l : List Char) :
    ∀ acc, ('/') ∉ acc → ('/') ∉ basenameAux acc l := by
  induction l with
  | nil =>
    intro acc h
    simpa [basenameAux] using h
  | cons c rest ih =>
    intro acc h
    rw [basenameAux]
    by_cases hc : c = '/'
    · rw [if_pos hc]
      exact ih [] (by simp)
    · rw [if_neg hc]
      refine ih (acc ++ [c]) ?_
      intro hmem
      rcases List.mem_append.mp hmem with hmem | hmem
      · exact h hmem
      · exact hc (List.mem_singleton.mp hmem).symm

theorem basename_no_slash (s : String) : ('/') ∉ (basename s).data :=
  basenameAux_no_slash s.data [] (by simp)

/-- Index of the last occurrence of `c` in `l` (Python `str.rfind`), if any. -/
def rfindIdx (l : List Char) (c : Char) : Option Nat :=
  (l.reverse.findIdx? (fun x => x == c)).map (fun i => l.length - 1 - i)

/-- `os.path.splitext` on a separator-free path (the `upload` call site applies
it to `os.path.basename(...)`, which contains no `'/'`): split at the last dot
provided some earlier character is not itself a dot; otherwise no extension. -/
def splitext (s : String) : String × String :=
  match rfindIdx s.data ('.') with
  | none => (s, "")
  | some i =>
    if (s.data.take i).any (fun c => c != '.') then (⟨s.data.take i⟩, ⟨s.data.drop i⟩)
    else (s, "")

theorem splitext_fst_subset (s : String) : (splitext s).1.data ⊆ s.data := by
  unfold splitext
  rcases rfindIdx s.data ('.') with _ | i
  · exact fun c hc => hc
  · by_cases h : (s.data.take i).any (fun c => c != '.')
    · simp only [h, if_true]
      exact List.take_subset i s.data
    · simp only [h, if_false]
      exact fun c hc => hc

theorem splitext_snd_subset (s : String) : (splitext s).2.data ⊆ s.data := by
  unfold splitext
  rcases rfindIdx s.data ('.') with _ | i
  · intro c hc
    exact absurd hc (by simp)
  · by_cases h : (s.data.take i).any (fun c => c != '.')
    · simp only [h, if_true]
      exact List.drop_subset i s.data
    · simp only [h, if_false]
      intro c hc
      exact absurd hc (by simp)

/-! ### Collision probing -/

/-- One probe candidate: the Python f-string `f"{base}({counter}){ext}"`. -/
def candidate (base ext : String) (k : Nat) : String :=
  base ++ "(" ++ Nat.repr k ++ ")" ++ ext

theorem candidate_data (base ext : String) (k : Nat) :
    (candidate base ext k).data
      = base.data ++ ('(') :: ((Nat.repr k).data ++ (')') :: ext.data) := by
  have h1 : ("(" : String).data = [('(')] := rfl
  have h2 : (")" : String).data = [(')')] := rfl
  simp [candidate, String.data_append, h1, h2]

/-- `Path.exists()` for an entry of the storage directory: the name is present
in the directory listing, or it is one of the dot entries `"."`/`".."`, which
every POSIX directory contains. -/
def pathExists (names : List String) (s : String) : Bool :=
  decide (s ∈ names ∨ s = "." ∨ s = "..")

theorem pathExists_false_iff (names : List String) (s : String) :
    pathExists names s = false ↔ s ∉ names ∧ s ≠ "." ∧ s ≠ ".." := by
  simp [pathExists, not_or]

theorem lparen_mem_candidate (base ext : String) (k : Nat) :
    ('(') ∈ (candidate base ext k).data := by
  rw [candidate_data]
  exact List.mem_append.mpr (Or.inr (List.mem_cons_self _ _))

theorem candidate_ne_dot (base ext : String) (k : Nat) : candidate base ext k ≠ "." := by
  intro h
  exact absurd (h ▸ lparen_mem_candidate base ext k) (by decide)

theorem candidate_ne_dotdot (base ext : String) (k : Nat) : candidate base ext k ≠ ".." := by
  intro h
  exact absurd (h ▸ lparen_mem_candidate base ext k) (by decide)

theorem append_sep_cancel (c : Char) :
    ∀ (a b t : List Char), c ∉ a → c ∉ b → a ++ c :: t = b ++ c :: t → a = b := by
  intro a
  induction a with
  | nil =>
    intro b t _ hb h
    cases b with
    | nil => rfl
    | cons y ys =>
      simp only [List.nil_append, List.cons_append, List.cons.injEq] at h
      exact absurd (List.mem_cons_self y ys) (h.1 ▸ hb)
  | cons x xs ih =>
    intro b t ha hb h
    cases b with
    | nil =>
      simp only [List.nil_append, List.cons_append, List.cons.injEq] at h
      exact absurd (List.mem_cons_self x xs) (h.1.symm ▸ ha)
    | cons y ys =>
      simp only [List.cons_append, List.cons.injEq] at h
      rcases h with ⟨rfl, h2⟩
      rw [ih ys t (fun hm => ha (List.mem_cons_of_mem _ hm))
        (fun hm => hb (List.mem_cons_of_mem _ hm)) h2]

theorem candidate_injective (base ext : String) :
    Function.Injective (fun k => candidate base ext k) := by
  intro k1 k2 h
  have hd := congrArg String.data h
  rw [candidate_data, candidate_data] at hd
  have h1 := List.append_cancel_left hd
  simp only [List.cons.injEq, true_and] at h1
  have h2 := append_sep_cancel (')') _ _ _ (rparen_not_mem_repr k1) (rparen_not_mem_repr k2) h1
  exact repr_injective (String.ext h2)

theorem exists_candidate_free (names : List String) (base ext : String) :
    ∃ k : Nat, pathExists names (candidate base ext (k + 1)) = false := by
  by_contra hall
  push_neg at hall
  have hmem : ∀ k : Nat, candidate base ext (k + 1) ∈ names := by
    intro k
    have htrue : pathExists names (candidate base ext (k + 1)) = true := by
      rcases Bool.eq_false_or_eq_true (pathExists names (candidate base ext (k + 1))) with h | h
      · exact h
      · exact absurd h (hall k)
    rcases of_decide_eq_true htrue with h | h | h
    · exact h
    · exact absurd h (candidate_ne_dot base ext (k + 1))
    · exact absurd h (candidate_ne_dotdot base ext (k + 1))
  have hinj : Function.Injective (fun k : Nat => candidate base ext (k + 1)) := by
    intro a b hab
    have := candidate_injective base ext hab
    omega
  have hnd : ((List.range (names.length + 1)).map
      (fun k : Nat => candidate base ext (k + 1))).Nodup :=
    List.Nodup.map hinj (List.nodup_range _)
  have hsub : ((List.range (names.length + 1)).map
      (fun k : Nat => candidate base ext (k + 1))) ⊆ names := by
    intro x hx
    rcases List.mem_map.mp hx with ⟨k, _, rfl⟩
    exact hmem k
  have hle := (hnd.subperm hsub).length_le
  simp [List.length_map, List.length_range] at hle

/-- The destination-name resolution of `upload` (lines 74–85 of the source):
keep the sanitized name if it is unused, otherwise probe
`f"{base}({counter}){ext}"` for `counter = 1, 2, …` and take the first unused
candidate, i.e. the candidate with the least counter. -/
def resolveDest (names : List String) (filename : String) : String :=
  if pathExists names filename then
    candidate (splitext filename).1 (splitext filename).2
      (Nat.find (exists_candidate_free names (splitext filename).1 (splitext filename).2) + 1)
  else filename

theorem resolveDest_free (names : List String) (filename : String) :
    pathExists names (resolveDest names filename) = false := by
  unfold resolveDest
  by_cases h : pathExists names filename = true
  · rw [if_pos h]
    exact Nat.find_spec (exists_candidate_free names (splitext filename).1 (splitext filename).2)
  · rw [if_neg h]
    exact Bool.eq_false_iff.mpr (fun hb => h hb)

/-! ### The streaming write loop

`upload` reads the request body with `await file.read(CHUNK_SIZE)` and writes
each chunk with `await out_file.write(chunk)`, accumulating
`total_written += len(chunk)`; an empty read breaks the loop, and any
exception aborts it.  We embed one loop iteration as an event: `Ev.ok c` is a
read that returned the bytes `c` followed by a completed write of `c`, and
`Ev.fail msg` is an iteration in which the read or the write raised `msg`.
The loop returns the bytes now in the destination file, the running total,
and the exception if one was raised; events after the terminating one model
reads that never happen and are ignored.
-/

/-- The source's `CHUNK_SIZE = 1024 * 1024 * 4  # 4MB chunks`. -/
def CHUNK_SIZE : Nat := 1024 * 1024 * 4

inductive Ev where
  | ok (c : List Nat)
  | fail (msg : String)
deriving DecidableEq

def writeLoop : List Ev → (List Nat × Nat) × Option String
  | [] => (([], 0), none)
  | Ev.ok c :: rest =>
    if c = [] then (([], 0), none)
    else
      let r := writeLoop rest
      ((c ++ r.1.1, c.length + r.1.2), r.2)
  | Ev.fail e :: _ => (([], 0), some e)

theorem writeLoop_ok (chunks : List (List Nat)) (h : ∀ c ∈ chunks, c ≠ []) :
    writeLoop (chunks.map Ev.ok) = ((chunks.flatten, (chunks.map List.length).sum), none) := by
  induction chunks with
  | nil => rfl
  | cons c cs ih =>
    have hc : ¬ c = [] := h c (List.mem_cons_self c cs)
    simp only [List.map_cons, writeLoop, if_neg hc,
      ih (fun x hx => h x (List.mem_cons_of_mem c hx))]
    simp

theorem writeLoop_fail (pre : List (List Nat)) (e : String) (post : List Ev)
    (h : ∀ c ∈ pre, c ≠ []) :
    writeLoop (pre.map Ev.ok ++ Ev.fail e :: post)
      = ((pre.flatten, (pre.map List.length).sum), some e) := by
  induction pre with
  | nil => rfl
  | cons c cs ih =>
    have hc : ¬ c = [] := h c (List.mem_cons_self c cs)
    have ih2 := ih (fun x hx => h x (List.mem_cons_of_mem c hx))
    rw [List.map_cons, List.cons_append, writeLoop, if_neg hc, ih2]
    simp

theorem writeLoop_eof (pre : List (List Nat)) (post : List Ev)
    (h : ∀ c ∈ pre, c ≠ []) :
    writeLoop (pre.map Ev.ok ++ Ev.ok [] :: post)
      = ((pre.flatten, (pre.map List.length).sum), none) := by
  induction pre with
  | nil => simp [writeLoop]
  | cons c cs ih =>
    have hc : ¬ c = [] := h c (List.mem_cons_self c cs)
    have ih2 := ih (fun x hx => h x (List.mem_cons_of_mem c hx))
    rw [List.map_cons, List.cons_append, writeLoop, if_neg hc, ih2]
    simp

/-! ### The `upload` endpoint -/

/-- Outcome of one `upload` request: the storage directory after the request
(an association list of filename/contents pairs), together with the HTTP
response — `success` carries the JSON fields `filename` and `size_bytes`,
`clientError` is the 400 `HTTPException`, `serverError` the 500 one. -/
inductive UploadResult where
  | success (fs : List (String × List Nat)) (filename : String) (sizeBytes : Nat)
  | clientError (fs : List (String × List Nat)) (detail : String)
  | serverError (fs : List (String × List Nat)) (detail : String)
deriving DecidableEq

/-- The `upload` endpoint (source lines 63–107): sanitize the filename with
`os.path.basename` and reject an empty result with a 400; resolve the
destination name against the current directory listing; stream the body to
the destination file; on an exception, attempt to delete the partial file
(`unlinkOk = false` models `dest_path.unlink()` itself raising, which the
bare `except: pass` swallows) and report a 500 carrying the cause; on
success report the stored name and the byte total. -/
def upload (fs : List (String × List Nat)) (rawFilename : String)
    (events : List Ev) (unlinkOk : Bool) : UploadResult :=
  let filename := basename rawFilename
  if filename = "" then UploadResult.clientError fs ("Missing filename")
  else
    let dest := resolveDest (fs.map Prod.fst) filename
    let r := writeLoop events
    match r.2 with
    | none => UploadResult.success ((dest, r.1.1) :: fs) dest r.1.2
    | some e =>
      let fsAfter :=
        if unlinkOk then ((dest, r.1.1) :: fs).eraseP (fun p => p.1 == dest)
        else (dest, r.1.1) :: fs
      UploadResult.serverError fsAfter ("Failed to save file: " ++ e)

/-! ### The Streamlit relay controls

The relay controller state is the single `st.session_state.ffmpeg_proc`
slot.  We model process handles as pids, and keep alongside the controller
state the list of spawned relay processes that the operating system still
considers alive, so that a process exiting on its own (`procExit`) is
distinguishable from a kill issued by `stopHandler`.  The per-rerun log
widget (`log_lines` / `append_log`) is UI-local state and is not modelled.
-/

structure RelayState where
  ffmpeg_proc : Option Nat
  alive : List Nat
  nextPid : Nat
deriving DecidableEq

/-- The ffmpeg invocation constructed by the Start handler (source lines
252–261): fixed re-encoding arguments, `["-vf", "scale=720:1280"]` exactly
when the Shorts checkbox is set, and the RTMP URL built from the stream
key. -/
def buildCmd (videoPath streamKey : String) (isShorts : Bool) : List String :=
  let scaleArg := if isShorts then ["-vf", "scale=720:1280"] else ([] : List String)
  let outputUrl := "rtmp://a.rtmp.youtube.com/live2/" ++ streamKey
  ["ffmpeg", "-re", "-stream_loop", "-1", "-i", videoPath,
    "-c:v", "libx264", "-preset", "veryfast", "-b:v", "2500k",
    "-maxrate", "2500k", "-bufsize", "5000k",
    "-g", "60", "-keyint_min", "60",
    "-c:a", "aac", "-b:a", "128k"] ++ scaleArg ++ ["-f", "flv", outputUrl]

/-- The Start button handler (source lines 246–283).  It validates only that
a file is selected and the stream key is non-empty; it never inspects
`st.session_state.ffmpeg_proc`.  On a successful `subprocess.Popen` of
`buildCmd videoPath streamKey isShorts` it stores the new process handle,
unconditionally overwriting whatever handle was there.  `spawnFails = true`
models `Popen` raising (ffmpeg missing), in which case the assignment to
`st.session_state.ffmpeg_proc` is never reached.  The result is the new
controller state, the UI message, and the argument vector handed to
`subprocess.Popen` when a spawn was attempted. -/
def startHandler (videoPath : Option String) (streamKey : String) (isShorts : Bool)
    (spawnFails : Bool) (s : RelayState) : RelayState × String × Option (List String) :=
  match videoPath with
  | none => (s, "Pilih file dulu dari dropdown 'File yang tersedia di server'.", none)
  | some vp =>
    if streamKey = "" then (s, "Masukkan stream key YouTube.", none)
    else
      let cmd := buildCmd vp streamKey isShorts
      if spawnFails then
        (s, "Gagal menjalankan ffmpeg. Pastikan ffmpeg terinstal di PATH.", some cmd)
      else
        ({ ffmpeg_proc := some s.nextPid, alive := s.nextPid :: s.alive,
           nextPid := s.nextPid + 1 },
         "Streaming dimulai — periksa log.", some cmd)

/-- The Stop button handler (source lines 285–293): if a handle is stored,
`proc.kill()` the process, clear the slot and report the kill; otherwise
report that nothing is running. -/
def stopHandler (s : RelayState) : RelayState × String :=
  match s.ffmpeg_proc with
  | some pid =>
    ({ s with ffmpeg_proc := none, alive := s.alive.erase pid },
     "Streaming dihentikan (ffmpeg killed).")
  | none => (s, "Tidak ada proses ffmpeg berjalan.")

/-- Environment step: the relay process `pid` exits on its own (crash, bad
arguments, network failure).  Nothing in the source observes this: no code
polls the process or touches `st.session_state.ffmpeg_proc` when it
happens. -/
def procExit (pid : Nat) (s : RelayState) : RelayState :=
  { s with alive := s.alive.erase pid }

/-! ### Helper lemmas about `upload` and `resolveDest` -/

theorem upload_eq_success (fs : List (String × List Nat)) (raw : String)
    (events : List Ev) (u : Bool) (content : List Nat) (total : Nat)
    (hname : basename raw ≠ "")
    (hw : writeLoop events = ((content, total), none)) :
    upload fs raw events u
      = UploadResult.success
          ((resolveDest (fs.map Prod.fst) (basename raw), content) :: fs)
          (resolveDest (fs.map Prod.fst) (basename raw)) total := by
  unfold upload
  rw [if_neg hname, hw]

theorem upload_eq_error (fs : List (String × List Nat)) (raw : String)
    (events : List Ev) (u : Bool) (content : List Nat) (total : Nat) (e : String)
    (hname : basename raw ≠ "")
    (hw : writeLoop events = ((content, total), some e)) :
    upload fs raw events u
      = UploadResult.serverError
          (if u then fs
           else (resolveDest (fs.map Prod.fst) (basename raw), content) :: fs)
          ("Failed to save file: " ++ e) := by
  unfold upload
  rw [if_neg hname, hw]
  cases u with
  | false => simp
  | true => simp [List.eraseP_cons_of_pos]

theorem candidate_ne_empty (base ext : String) (k : Nat) : candidate base ext k ≠ "" := by
  intro h
  exact absurd (h ▸ lparen_mem_candidate base ext k) (by decide)

theorem resolveDest_ne_empty (names : List String) (s : String) (hs : s ≠ "") :
    resolveDest names s ≠ "" := by
  unfold resolveDest
  by_cases h : pathExists names s = true
  · rw [if_pos h]
    exact candidate_ne_empty _ _ _
  · rw [if_neg h]
    exact hs

theorem resolveDest_no_slash (names : List String) (s : String)
    (hs : ('/') ∉ s.data) : ('/') ∉ (resolveDest names s).data := by
  unfold resolveDest
  by_cases h : pathExists names s = true
  · rw [if_pos h, candidate_data]
    intro hmem
    rcases List.mem_append.mp hmem with hm | hm
    · exact hs (splitext_fst_subset s hm)
    · rcases List.mem_cons.mp hm with hm | hm
      · exact absurd hm (by decide)
      · rcases List.mem_append.mp hm with hm | hm
        · exact slash_not_mem_repr _ hm
        · rcases List.mem_cons.mp hm with hm | hm
          · exact absurd hm (by decide)
          · exact hs (splitext_snd_subset s hm)
  · rw [if_neg h]
    exact hs

theorem resolveDest_ne_dot (names : List String) (s : String) :
    resolveDest names s ≠ "." :=
  ((pathExists_false_iff names (resolveDest names s)).mp (resolveDest_free names s)).2.1

theorem resolveDest_ne_dotdot (names : List String) (s : String) :
    resolveDest names s ≠ ".." :=
  ((pathExists_false_iff names (resolveDest names s)).mp (resolveDest_free names s)).2.2

theorem scale_ne_url (key : String) :
    ("scale=720:1280" : String) ≠ "rtmp://a.rtmp.youtube.com/live2/" ++ key := by
  intro h
  have hd := congrArg String.data h
  rw [String.data_append] at hd
  have hlen := congrArg List.length hd
  rw [List.length_append] at hlen
  have h1 : ("scale=720:1280" : String).data.length = 14 := by decide
  have h2 : ("rtmp://a.rtmp.youtube.com/live2/" : String).data.length = 32 := by decide
  omega

theorem vf_ne_url (key : String) :
    ("-vf" : String) ≠ "rtmp://a.rtmp.youtube.com/live2/" ++ key := by
  intro h
  have hd := congrArg String.data h
  rw [String.data_append] at hd
  have hlen := congrArg List.length hd
  rw [List.length_append] at hlen
  have h1 : ("-vf" : String).data.length = 3 := by decide
  have h2 : ("rtmp://a.rtmp.youtube.com/live2/" : String).data.length = 32 := by decide
  omega

/-! ### The claims -/

/-- C1: a successful upload of a body delivered as any sequence of (non-empty)
chunks creates exactly one new file in the storage directory, its contents are
the concatenation of the chunks — byte-for-byte the input — and the success
response reports `size_bytes` equal to the total byte count `S`, which is the
sum of the lengths of all chunks written. -/
theorem claim_C1 (fs : List (String × List Nat)) (raw : String)
    (chunks : List (List Nat)) (unlinkOk : Bool)
    (hname : basename raw ≠ "")
    (hchunks : ∀ c ∈ chunks, c ≠ []) :
    upload fs raw (chunks.map Ev.ok) unlinkOk
      = UploadResult.success
          ((resolveDest (fs.map Prod.fst) (basename raw), chunks.flatten) :: fs)
          (resolveDest (fs.map Prod.fst) (basename raw))
          (chunks.flatten.length) ∧
    chunks.flatten.length = (chunks.map List.length).sum := by
  have hlen : chunks.flatten.length = (chunks.map List.length).sum := by
    simp [List.length_flatten]
  refine ⟨?_, hlen⟩
  rw [hlen]
  exact upload_eq_success fs raw _ unlinkOk _ _ hname (writeLoop_ok chunks hchunks)

/-- C1 witness: a concrete two-chunk upload of 4 bytes into an empty storage
directory. -/
theorem claim_C1_witness :
    basename ("video.mp4") ≠ "" ∧
    (∀ c ∈ [[1, 2, 3], [4]], c ≠ ([] : List Nat)) ∧
    upload [] ("video.mp4") ([[1, 2, 3], [4]].map Ev.ok) true
      = UploadResult.success [(("video.mp4" : String), [1, 2, 3, 4])] ("video.mp4") 4 := by
  refine ⟨by decide, by decide, ?_⟩
  have h := (claim_C1 [] ("video.mp4") [[1, 2, 3], [4]] true (by decide) (by decide)).1
  exact h.trans (by decide)

/-- C2: when the sanitized name already exists, the resolved destination is
`base(k)ext` for the least positive counter `k` whose candidate does not
collide: the chosen candidate is unused, and every smaller positive counter's
candidate is in use. -/
theorem claim_C2 (names : List String) (filename : String)
    (h : pathExists names filename = true) :
    ∃ k : Nat, 0 < k ∧
      resolveDest names filename
        = candidate (splitext filename).1 (splitext filename).2 k ∧
      pathExists names (candidate (splitext filename).1 (splitext filename).2 k) = false ∧
      ∀ j, 0 < j → j < k →
        pathExists names (candidate (splitext filename).1 (splitext filename).2 j) = true := by
  refine ⟨Nat.find (exists_candidate_free names (splitext filename).1 (splitext filename).2) + 1,
    by omega, ?_, ?_, ?_⟩
  · unfold resolveDest
    rw [if_pos h]
  · exact Nat.find_spec (exists_candidate_free names (splitext filename).1 (splitext filename).2)
  · intro j hj0 hjk
    have hmin := Nat.find_min
      (exists_candidate_free names (splitext filename).1 (splitext filename).2)
      (m := j - 1) (by omega)
    have hj : j - 1 + 1 = j := by omega
    rw [hj] at hmin
    rcases Bool.eq_false_or_eq_true
      (pathExists names (candidate (splitext filename).1 (splitext filename).2 j)) with hb | hb
    · exact hb
    · exact absurd hb hmin

/-- C2 witness: uploading `video.mp4` over an existing `video.mp4` resolves to
`video(1).mp4`, and over `video.mp4` and `video(1).mp4` to `video(2).mp4`. -/
theorem claim_C2_witness :
    pathExists [("video.mp4")] ("video.mp4") = true ∧
    (∃ k : Nat, 0 < k ∧
      resolveDest [("video.mp4")] ("video.mp4")
        = candidate (splitext ("video.mp4")).1 (splitext ("video.mp4")).2 k ∧
      pathExists [("video.mp4")]
        (candidate (splitext ("video.mp4")).1 (splitext ("video.mp4")).2 k) = false ∧
      ∀ j, 0 < j → j < k →
        pathExists [("video.mp4")]
          (candidate (splitext ("video.mp4")).1 (splitext ("video.mp4")).2 j) = true) ∧
    resolveDest [("video.mp4")] ("video.mp4") = "video(1).mp4" ∧
    resolveDest [("video.mp4"), ("video(1).mp4")] ("video.mp4") = "video(2).mp4" := by
  refine ⟨by decide, claim_C2 [("video.mp4")] ("video.mp4") (by decide), ?_, ?_⟩
  · unfold resolveDest
    rw [if_pos (by decide)]
    have hf : Nat.find (exists_candidate_free [("video.mp4")]
        (splitext ("video.mp4")).1 (splitext ("video.mp4")).2) = 0 := by
      rw [Nat.find_eq_iff]
      exact ⟨by decide, fun m hm => absurd hm (Nat.not_lt_zero m)⟩
    rw [hf]
    decide
  · unfold resolveDest
    rw [if_pos (by decide)]
    have hf : Nat.find (exists_candidate_free [("video.mp4"), ("video(1).mp4")]
        (splitext ("video.mp4")).1 (splitext ("video.mp4")).2) = 1 := by
      rw [Nat.find_eq_iff]
      refine ⟨by decide, ?_⟩
      intro m hm
      have hm0 : m = 0 := by omega
      subst hm0
      decide
    rw [hf]
    decide

/-- C10: filename resolution is a total function (it is a Lean `def`), and for
every finite directory listing it returns a destination name that is unused at
probe time — some counter always yields a fresh candidate. -/
theorem claim_C10 (names : List String) (filename : String) :
    pathExists names (resolveDest names filename) = false :=
  resolveDest_free names filename

/-- C3: only the base name of the supplied filename is honored.  If the base
name is empty the request is rejected with the 400 client error before any
write, leaving storage untouched; otherwise the resolved destination name is
non-empty, contains no path separator and is not a dot entry, so the
destination path `UPLOAD_DIR / dest` lies inside the storage directory and no
file outside it is created or overwritten. -/
theorem claim_C3 (fs : List (String × List Nat)) (raw : String) (events : List Ev)
    (unlinkOk : Bool) :
    (basename raw = "" →
      upload fs raw events unlinkOk = UploadResult.clientError fs ("Missing filename")) ∧
    (basename raw ≠ "" →
      ('/') ∉ (resolveDest (fs.map Prod.fst) (basename raw)).data ∧
      resolveDest (fs.map Prod.fst) (basename raw) ≠ "" ∧
      resolveDest (fs.map Prod.fst) (basename raw) ≠ "." ∧
      resolveDest (fs.map Prod.fst) (basename raw) ≠ "..") := by
  constructor
  · intro h
    unfold upload
    rw [if_pos h]
  · intro h
    exact ⟨resolveDest_no_slash _ _ (basename_no_slash raw),
      resolveDest_ne_empty _ _ h, resolveDest_ne_dot _ _, resolveDest_ne_dotdot _ _⟩

/-- C3 witness: the traversal attempt `../../etc/passed.mp4` is reduced to its
base name `passed.mp4`, and a filename whose base name is empty (`uploads/`)
is rejected before any write. -/
theorem claim_C3_witness :
    (basename ("uploads/") = "" ∧
      upload [] ("uploads/") [] true = UploadResult.clientError [] ("Missing filename")) ∧
    (basename ("../../etc/passed.mp4") = "passed.mp4" ∧
      basename ("../../etc/passed.mp4") ≠ "" ∧
      (('/') ∉ (resolveDest [] (basename ("../../etc/passed.mp4"))).data ∧
        resolveDest [] (basename ("../../etc/passed.mp4")) ≠ "" ∧
        resolveDest [] (basename ("../../etc/passed.mp4")) ≠ "." ∧
        resolveDest [] (basename ("../../etc/passed.mp4")) ≠ "..")) := by
  refine ⟨⟨by decide, (claim_C3 [] ("uploads/") [] true).1 (by decide)⟩,
    by decide, by decide, (claim_C3 [] ("../../etc/passed.mp4") [] true).2 (by decide)⟩

/-- C4: an I/O failure while streaming aborts the upload with the 500 server
error whose message carries the underlying cause.  The partially written file
is deleted when the deletion succeeds (`unlinkOk = true` leaves storage
exactly as before the request); a failing deletion is swallowed — the
reported error is the same either way, so it cannot mask the original cause.
On success (no failure event) exactly one file is created. -/
theorem claim_C4 (fs : List (String × List Nat)) (raw : String)
    (pre : List (List Nat)) (e : String) (post : List Ev) (unlinkOk : Bool)
    (hname : basename raw ≠ "")
    (hpre : ∀ c ∈ pre, c ≠ []) :
    upload fs raw (pre.map Ev.ok ++ Ev.fail e :: post) unlinkOk
      = UploadResult.serverError
          (if unlinkOk then fs
           else (resolveDest (fs.map Prod.fst) (basename raw), pre.flatten) :: fs)
          ("Failed to save file: " ++ e) ∧
    upload fs raw (pre.map Ev.ok) unlinkOk
      = UploadResult.success
          ((resolveDest (fs.map Prod.fst) (basename raw), pre.flatten) :: fs)
          (resolveDest (fs.map Prod.fst) (basename raw))
          ((pre.map List.length).sum) :=
  ⟨upload_eq_error fs raw _ unlinkOk _ _ e hname (writeLoop_fail pre e post hpre),
   upload_eq_success fs raw _ unlinkOk _ _ hname (writeLoop_ok pre hpre)⟩

/-- C4 witness: a write failure after two chunks, with the deletion of the
partial file succeeding in one run and failing in the other; the reported
error is identical, and in the cleanup run storage is unchanged. -/
theorem claim_C4_witness :
    basename ("video.mp4") ≠ "" ∧
    (∀ c ∈ [[1, 2], [3]], c ≠ ([] : List Nat)) ∧
    upload [] ("video.mp4") ([[1, 2], [3]].map Ev.ok ++ Ev.fail ("disk full") :: []) true
      = UploadResult.serverError [] ("Failed to save file: disk full") ∧
    upload [] ("video.mp4") ([[1, 2], [3]].map Ev.ok ++ Ev.fail ("disk full") :: []) false
      = UploadResult.serverError [(("video.mp4" : String), [1, 2, 3])]
          ("Failed to save file: disk full") := by
  refine ⟨by decide, by decide, ?_, ?_⟩
  · have h := (claim_C4 [] ("video.mp4") [[1, 2], [3]] ("disk full") [] true
      (by decide) (by decide)).1
    exact h.trans (by decide)
  · have h := (claim_C4 [] ("video.mp4") [[1, 2], [3]] ("disk full") [] false
      (by decide) (by decide)).1
    exact h.trans (by decide)

/-- C8: the streaming loop reads chunks bounded by the fixed reference size
`CHUNK_SIZE` (4 MiB); the chunks are written in the order received, with each
iteration's write completed before the loop advances; a zero-length read
signals completion of the stream, ignoring anything after it; and a write
failure aborts the loop immediately — nothing past the failing iteration is
written, and the bytes on disk are exactly the chunks completed before it. -/
theorem claim_C8 (pre : List (List Nat)) (e : String) (post : List Ev)
    (hpre : ∀ c ∈ pre, c ≠ [])
    (_hsize : ∀ c ∈ pre, c.length ≤ CHUNK_SIZE) :
    CHUNK_SIZE = 4 * 1024 * 1024 ∧
    writeLoop (pre.map Ev.ok)
      = ((pre.flatten, (pre.map List.length).sum), none) ∧
    writeLoop (pre.map Ev.ok ++ Ev.ok [] :: post)
      = ((pre.flatten, (pre.map List.length).sum), none) ∧
    writeLoop (pre.map Ev.ok ++ Ev.fail e :: post)
      = ((pre.flatten, (pre.map List.length).sum), some e) :=
  ⟨by norm_num [CHUNK_SIZE], writeLoop_ok pre hpre, writeLoop_eof pre post hpre,
   writeLoop_fail pre e post hpre⟩

/-- C8 witness: two chunks followed by a zero-length read, and the same two
chunks followed by a write failure. -/
theorem claim_C8_witness :
    (∀ c ∈ [[7], [8, 9]], c ≠ ([] : List Nat)) ∧
    (∀ c ∈ [[7], [8, 9]], List.length c ≤ CHUNK_SIZE) ∧
    (CHUNK_SIZE = 4 * 1024 * 1024 ∧
      writeLoop ([[7], [8, 9]].map Ev.ok) = (([7, 8, 9], 3), none) ∧
      writeLoop ([[7], [8, 9]].map Ev.ok ++ Ev.ok [] :: [Ev.ok [5]])
        = (([7, 8, 9], 3), none) ∧
      writeLoop ([[7], [8, 9]].map Ev.ok ++ Ev.fail ("io error") :: [Ev.ok [5]])
        = (([7, 8, 9], 3), some ("io error"))) := by
  refine ⟨by decide, by decide, ?_⟩
  have h := claim_C8 [[7], [8, 9]] ("io error") [Ev.ok [5]] (by decide) (by decide)
  refine ⟨h.1, h.2.1.trans (by decide), h.2.2.1.trans (by decide), h.2.2.2.trans (by decide)⟩

/-- C5 counterexample: start a session (pid 0, alive), then let the process
exit on its own.  The OS no longer runs any relay process (`alive = []`), yet
the controller still holds the handle (`ffmpeg_proc = some 0`), its
session-active criterion (`if proc:`) still answers "active", and the next
stop reports a kill rather than "nothing to stop" — the session is not
observable as stopped after the self-exit, refuting the claim. -/
theorem claim_C5_counterexample :
    (procExit 0 (startHandler (some ("/app/uploads/video.mp4")) ("key123") false false
        ⟨none, [], 0⟩).1).alive = [] ∧
    (procExit 0 (startHandler (some ("/app/uploads/video.mp4")) ("key123") false false
        ⟨none, [], 0⟩).1).ffmpeg_proc = some 0 ∧
    (stopHandler (procExit 0 (startHandler (some ("/app/uploads/video.mp4")) ("key123")
        false false ⟨none, [], 0⟩).1)).2
      ≠ "Tidak ada proses ffmpeg berjalan." := by
  decide

/-- C5 (amended): the controller does not detect self-termination.  When the
relay process exits on its own, no code updates
`st.session_state.ffmpeg_proc`: the stored handle survives unchanged, the
controller's only state observation (the `if proc:` test of the stop
handler) still treats the session as active, and the next stop reports a
kill instead of "nothing to stop".  Only the cessation of new log lines
reflects the exit; there is no status query that reports a non-running
state. -/
theorem claim_C5 (s : RelayState) (pid : Nat) (h : s.ffmpeg_proc = some pid) :
    (procExit pid s).ffmpeg_proc = some pid ∧
    (procExit pid s).alive = s.alive.erase pid ∧
    (stopHandler (procExit pid s)).2 = "Streaming dihentikan (ffmpeg killed)." := by
  refine ⟨h, rfl, ?_⟩
  simp [stopHandler, procExit, h]

/-- C5 witness: a controller holding pid 3 whose process has exited. -/
theorem claim_C5_witness :
    (RelayState.mk (some 3) [3] 4).ffmpeg_proc = some 3 ∧
    ((procExit 3 (RelayState.mk (some 3) [3] 4)).ffmpeg_proc = some 3 ∧
      (procExit 3 (RelayState.mk (some 3) [3] 4)).alive = [3].erase 3 ∧
      (stopHandler (procExit 3 (RelayState.mk (some 3) [3] 4))).2
        = "Streaming dihentikan (ffmpeg killed).") :=
  ⟨rfl, claim_C5 (RelayState.mk (some 3) [3] 4) 3 rfl⟩

/-- C6 counterexample: two consecutive starts with a file selected and a
non-empty stream key.  The second start spawns a second relay process (two
pids alive) and replaces the stored handle (`some 1` instead of `some 0`),
reporting plain success — refuting the claim that a start while a session is
active is a no-op that spawns nothing and keeps the existing handle. -/
theorem claim_C6_counterexample :
    (startHandler (some ("/app/uploads/video.mp4")) ("key123") false false
        (startHandler (some ("/app/uploads/video.mp4")) ("key123") false false
          ⟨none, [], 0⟩).1).1.alive.length = 2 ∧
    (startHandler (some ("/app/uploads/video.mp4")) ("key123") false false
        (startHandler (some ("/app/uploads/video.mp4")) ("key123") false false
          ⟨none, [], 0⟩).1).1.ffmpeg_proc = some 1 ∧
    (startHandler (some ("/app/uploads/video.mp4")) ("key123") false false
        (startHandler (some ("/app/uploads/video.mp4")) ("key123") false false
          ⟨none, [], 0⟩).1).2.1 = "Streaming dimulai — periksa log." := by
  decide

/-- C6 (amended): the Start handler checks only that a file is selected and
the stream key is non-empty; it never inspects the current session.  Starting
while a session is active spawns another relay process (one more alive pid,
the previous ones untouched and not stopped) and unconditionally replaces the
stored handle with the new process, reporting ordinary success. -/
theorem claim_C6 (s : RelayState) (pid : Nat) (videoPath streamKey : String)
    (isShorts : Bool) (_hactive : s.ffmpeg_proc = some pid) (hkey : streamKey ≠ "") :
    startHandler (some videoPath) streamKey isShorts false s
      = ({ ffmpeg_proc := some s.nextPid, alive := s.nextPid :: s.alive,
           nextPid := s.nextPid + 1 },
         "Streaming dimulai — periksa log.",
         some (buildCmd videoPath streamKey isShorts)) := by
  simp [startHandler, hkey]

/-- C6 witness: starting over an active session with pid 0. -/
theorem claim_C6_witness :
    (RelayState.mk (some 0) [0] 1).ffmpeg_proc = some 0 ∧
    ("key123" : String) ≠ "" ∧
    startHandler (some ("/app/uploads/video.mp4")) ("key123") true false
        (RelayState.mk (some 0) [0] 1)
      = ({ ffmpeg_proc := some 1, alive := [1, 0], nextPid := 2 },
         "Streaming dimulai — periksa log.",
         some (buildCmd ("/app/uploads/video.mp4") ("key123") true)) :=
  ⟨rfl, by decide,
    claim_C6 (RelayState.mk (some 0) [0] 1) 0 ("/app/uploads/video.mp4") ("key123")
      true rfl (by decide)⟩

/-- C7: stopping with no active session is a total no-op that reports
"nothing to stop"; after a stop kills the process, the handle slot is
cleared — the controller's session-active observation reports no session —
and every further stop is such a no-op until a new start. -/
theorem claim_C7 (s : RelayState) :
    (s.ffmpeg_proc = none →
      stopHandler s = (s, "Tidak ada proses ffmpeg berjalan.")) ∧
    (∀ pid, s.ffmpeg_proc = some pid →
      (stopHandler s).1.ffmpeg_proc = none ∧
      stopHandler (stopHandler s).1
        = ((stopHandler s).1, "Tidak ada proses ffmpeg berjalan.")) := by
  constructor
  · intro h
    simp [stopHandler, h]
  · intro pid h
    constructor
    · simp [stopHandler, h]
    · simp [stopHandler, h]

/-- C7 witness: a stop on an idle controller, and a double stop on a
controller holding pid 5. -/
theorem claim_C7_witness :
    ((RelayState.mk none [] 0).ffmpeg_proc = none ∧
      stopHandler (RelayState.mk none [] 0)
        = (RelayState.mk none [] 0, "Tidak ada proses ffmpeg berjalan.")) ∧
    ((RelayState.mk (some 5) [5] 6).ffmpeg_proc = some 5 ∧
      ((stopHandler (RelayState.mk (some 5) [5] 6)).1.ffmpeg_proc = none ∧
        stopHandler (stopHandler (RelayState.mk (some 5) [5] 6)).1
          = ((stopHandler (RelayState.mk (some 5) [5] 6)).1,
             "Tidak ada proses ffmpeg berjalan."))) :=
  ⟨⟨rfl, (claim_C7 (RelayState.mk none [] 0)).1 rfl⟩,
   ⟨rfl, (claim_C7 (RelayState.mk (some 5) [5] 6)).2 5 rfl⟩⟩

/-- C9: the constructed ffmpeg invocation contains the fixed vertical
transform `-vf scale=720:1280` exactly when the Shorts flag is set; with the
flag clear neither argument appears.  (The source file path produced by
`os.path.abspath` is absolute, hence never equal to either literal argument;
the RTMP URL cannot be, whatever the stream key.) -/
theorem claim_C9 (videoPath streamKey : String) (isShorts : Bool)
    (h1 : videoPath ≠ "scale=720:1280") (h2 : videoPath ≠ "-vf") :
    (("scale=720:1280" : String) ∈ buildCmd videoPath streamKey isShorts
      ↔ isShorts = true) ∧
    (("-vf" : String) ∈ buildCmd videoPath streamKey isShorts ↔ isShorts = true) := by
  cases isShorts with
  | true => simp [buildCmd]
  | false =>
    simp [buildCmd, Ne.symm h1, Ne.symm h2, scale_ne_url streamKey, vf_ne_url streamKey]

/-- C9 witness: a concrete absolute source path and stream key, with the
Shorts flag set and clear. -/
theorem claim_C9_witness :
    ("/app/uploads/video.mp4" : String) ≠ "scale=720:1280" ∧
    ("/app/uploads/video.mp4" : String) ≠ "-vf" ∧
    (("scale=720:1280" : String) ∈ buildCmd ("/app/uploads/video.mp4") ("key123") true
      ↔ true = true) ∧
    (("scale=720:1280" : String) ∈ buildCmd ("/app/uploads/video.mp4") ("key123") false
      ↔ false = true) := by
  refine ⟨by decide, by decide, ?_, ?_⟩
  · exact (claim_C9 ("/app/uploads/video.mp4") ("key123") true (by decide) (by decide)).1
  · exact (claim_C9 ("/app/uploads/video.mp4") ("key123") false (by decide) (by decide)).1

end Htjdg
